import Mathlib

/-!
Verification development for the currency-converter repository
(`currency_converter.py`): a shallow embedding of the symbol resolver,
the conversion orchestrator, and the HTTP handler, together with
theorems settling the claims of the specification.

Python floats are modelled as rationals (`ℚ`); Python exceptions as
`Except` error values; the external rate providers (`CurrencyRates`,
`BtcConverter`) as a record of functions that may fail.
-/

set_option autoImplicit false

namespace CurrencyConverter

/-- One entry of the currency reference table: an ISO code `cc` and its
symbol, mirroring the `cc`/`symbol` keys of the bundled JSON file. -/
structure CurrencyEntry where
  cc : String
  symbol : String
deriving DecidableEq, Repr

/-- Modelled from the spec: the bundled `symbols.json` reference table is
not under `src/` (only the loader `get_currency_data` is).  The spec fixes
its ordering — alphabetical by code, giving the ambiguous-symbol groups
$→AUD, CAD, MXN, USD; ¥→CNY, JPY; kr→ISK, NOK, SEK; R→RUB, ZAR — plus the
"BTC" pseudo-entry and the fiat codes used in the scenarios of the spec. -/
def currency_data : List CurrencyEntry :=
  [⟨"AUD", "$"⟩, ⟨"BTC", "฿"⟩, ⟨"CAD", "$"⟩, ⟨"CNY", "¥"⟩,
   ⟨"EUR", "€"⟩, ⟨"GBP", "£"⟩, ⟨"ISK", "kr"⟩, ⟨"JPY", "¥"⟩,
   ⟨"MXN", "$"⟩, ⟨"NOK", "kr"⟩, ⟨"RUB", "R"⟩, ⟨"SEK", "kr"⟩,
   ⟨"USD", "$"⟩, ⟨"ZAR", "R"⟩]

/-- `get_currency_data()`: reads and parses the bundled reference file;
modelled as returning the (process-wide, read-only) table. -/
def get_currency_data : List CurrencyEntry := currency_data

/-- `is_currency_code(currency_string)`: scan the table; `True` as soon as
the `cc` of some entry equals the string, `False` after the loop. -/
def is_currency_code (currency_string : String) : Bool :=
  get_currency_data.any (fun item => item.cc = currency_string)

/-- `get_currency_code(currency)`: exact-code fast path, then the
hard-coded `"$" → "USD"` selection, then a first-match scan of the
symbol column; `None` when nothing matches. -/
def get_currency_code (currency : String) : Option String :=
  if is_currency_code currency then
    some currency
  else if currency = "$" then
    some "USD"
  else
    (get_currency_data.find? (fun item => item.symbol = currency)).map
      (fun item => item.cc)

/-- Failure modes of the external rate providers: `RatesNotAvailableError`
raised by forex-python, or `ConnectionError` from the transport layer. -/
inductive ProviderError where
  | ratesNotAvailable
  | connectionError
deriving DecidableEq, Repr

/-- The external collaborators `CurrencyRates` (`c`) and `BtcConverter`
(`b`), abstracted as functions that either return a rate-converted amount
or fail with a `ProviderError`; argument order follows the call sites
`c.convert(in, out, amount)`, `b.convert_btc_to_cur(amount, cc)`,
`b.convert_to_btc(amount, in)`. -/
structure RateProvider where
  convert : String → String → ℚ → Except ProviderError ℚ
  convert_btc_to_cur : ℚ → String → Except ProviderError ℚ
  convert_to_btc : ℚ → String → Except ProviderError ℚ

/-- The Python builtin `round(x, n)`: round to `n` decimal places, modelled on
rationals (tie behaviour at exact halves follows the `round` of Mathlib, which
can differ from float banker rounding; no claim depends on ties). -/
def pyRound (x : ℚ) (n : ℕ) : ℚ :=
  ((round (x * 10 ^ n) : ℤ) : ℚ) / 10 ^ n

/-- Exceptions `convert` can raise: the two local exception classes plus
the two provider exceptions it lets escape. -/
inductive ConvError where
  | unknownCurrency
  | sameCurrency
  | ratesNotAvailable
  | connectionError
deriving DecidableEq, Repr

/-- The body of the `try:` block for one target `cc` (lines 131-139):
pick the provider call by the BTC cases and apply the rounding of that
branch (2 decimals from BTC, 5 decimals into BTC, 2 otherwise). -/
def attemptFor (p : RateProvider) (amount : ℚ) (inCode cc : String) :
    Except ProviderError ℚ :=
  if inCode = "BTC" then
    (p.convert_btc_to_cur amount cc).map (fun v => pyRound v 2)
  else if cc = "BTC" then
    (p.convert_to_btc amount inCode).map (fun v => pyRound v 5)
  else
    (p.convert inCode cc amount).map (fun v => pyRound v 2)

/-- The `for item in currency_data:` loop of `convert` (lines 124-145),
over the list of target codes.  A target equal to the input code is
skipped in broadcast mode (`output_currency is None`) and raises
`SameCurrencyError` otherwise; `RatesNotAvailableError` from the provider
is skipped in broadcast mode and re-raised otherwise; `ConnectionError`
is not caught and aborts the whole loop.  The result is the
`output_currencies` dict as an insertion-ordered association list. -/
def convertLoop (p : RateProvider) (amount : ℚ) (inCode : String)
    (output_currency : Option String) :
    List String → Except ConvError (List (String × ℚ))
  | [] => .ok []
  | cc :: rest =>
    if cc = inCode then
      match output_currency with
      | none => convertLoop p amount inCode output_currency rest
      | some _ => .error .sameCurrency
    else
      match attemptFor p amount inCode cc with
      | .ok v =>
        match convertLoop p amount inCode output_currency rest with
        | .ok out => .ok ((cc, v) :: out)
        | .error e => .error e
      | .error .ratesNotAvailable =>
        match output_currency with
        | none => convertLoop p amount inCode output_currency rest
        | some _ => .error .ratesNotAvailable
      | .error .connectionError => .error .connectionError

/-- The `input` sub-dict of the result: its amount and currency keys. -/
structure ConversionInput where
  amount : ℚ
  currency : String
deriving DecidableEq, Repr

/-- The `output_data` dict assembled at lines 147-149: the `input`
sub-dict and the `output` mapping in insertion order. -/
structure OutputData where
  input : ConversionInput
  output : List (String × ℚ)
deriving DecidableEq, Repr

/-- `convert(amount, input_currency, output_currency)` up to the
assembly of `output_data` (lines 105-149): resolve the input token,
build the target list (the single resolved output code, or the whole
table), run the conversion loop, and assemble the result. -/
def convertData (p : RateProvider) (amount : ℚ) (input_currency : String)
    (output_currency : Option String) : Except ConvError OutputData :=
  match get_currency_code input_currency with
  | none => .error .unknownCurrency
  | some input_currency_code =>
    match
      (match output_currency with
       | some oc =>
         match get_currency_code oc with
         | none => .error .unknownCurrency
         | some output_currency_code => .ok [output_currency_code]
       | none => .ok (get_currency_data.map (fun item => item.cc)) :
         Except ConvError (List String))
    with
    | .error e => .error e
    | .ok targets =>
      match convertLoop p amount input_currency_code output_currency targets with
      | .error e => .error e
      | .ok output_currencies =>
        .ok ⟨⟨amount, input_currency_code⟩, output_currencies⟩

/-- Decimal digits of the fractional part `r / d` (with `r < d`),
long division one digit at a time, stopping when the remainder is zero;
the fuel bounds the number of emitted digits. -/
def fracDigits : ℕ → ℕ → ℕ → String
  | 0, _, _ => ""
  | _ + 1, 0, _ => ""
  | fuel + 1, r, d =>
    toString (r * 10 / d) ++ fracDigits fuel (r * 10 % d) d

/-- The Python `repr` of a (decimal-valued) float as emitted by
`json.dumps`: sign, integer part, a dot, then the fractional digits
(`".0"` when the value is integral). -/
def renderFloat (q : ℚ) : String :=
  let n : ℕ := q.num.natAbs
  let d : ℕ := q.den
  (if q.num < 0 then "-" else "") ++ toString (n / d) ++ "." ++
    (if n % d = 0 then "0" else fracDigits 40 (n % d) d)

/-- One line of the serialized `output` dict: `\t\t"CC": value`. -/
def renderOutputItem (kv : String × ℚ) : String :=
  "\t\t\"" ++ kv.1 ++ "\": " ++ renderFloat kv.2

/-- `json.dumps` of the `output` sub-dict with tab indent: empty-dict braces when
empty, otherwise one entry per line between braces. -/
def renderOutput (out : List (String × ℚ)) : String :=
  match out with
  | [] => "\x7b\x7d"
  | _ =>
    "\x7b\n" ++ String.intercalate ",\n" (out.map renderOutputItem) ++
      "\n\t\x7d"

/-- `json.dumps` with tab indent for the two-level result
structure. -/
def jsonDumps (d : OutputData) : String :=
  "\x7b\n\t\"input\": \x7b\n\t\t\"amount\": " ++ renderFloat d.input.amount ++
    ",\n\t\t\"currency\": \"" ++ d.input.currency ++
    "\"\n\t\x7d,\n\t\"output\": " ++ renderOutput d.output ++ "\n\x7d"

/-- `convert` in full (lines 105-151): the assembled `output_data`,
serialized by the tab-indented `json.dumps` call at line 151 —
`convert` itself returns JSON text, not the bare structure. -/
def convert (p : RateProvider) (amount : ℚ) (input_currency : String)
    (output_currency : Option String) : Except ConvError String :=
  (convertData p amount input_currency output_currency).map jsonDumps

/-- The fixed user-visible messages of class `ErrorMsg`. -/
structure ErrorMsgStrings where
  no_connection : String
  rate_not_available : String
  unknown_currency : String
  same_currency : String
  float_arg_expected : String

/-- The `ErrorMsg` class constants. -/
def ErrorMsg : ErrorMsgStrings :=
  { no_connection := "ERROR: No connection to a currency server"
    rate_not_available := "ERROR: Currency rate not available"
    unknown_currency := "ERROR: Unknown currency"
    same_currency := "ERROR: Cannot convert into the same currency"
    float_arg_expected := "ERROR: Amount argument expected as float number" }

/-- A Flask `Response`: body text and HTTP status. -/
structure Response where
  body : String
  status : ℕ
deriving DecidableEq, Repr

/-- Exceptions the handler does not catch and lets escape to Flask:
`float(None)` raises `TypeError`. -/
inductive PyExn where
  | typeError
deriving DecidableEq, Repr

/-- The Python builtin `float(x)` applied to `request.args.get(...)`:
`TypeError` on `None`, `ValueError` on an unparsable string, the value
otherwise; the string-to-float parsing itself is a Python builtin,
abstracted as the parameter `fp`. -/
inductive FloatExn where
  | valueError
  | typeError
deriving DecidableEq, Repr

/-- The amount query parameter passed through `float(...)` — see `FloatExn`. -/
def pyFloat (fp : String → Option ℚ) : Option String → Except FloatExn ℚ
  | none => .error .typeError
  | some s =>
    match fp s with
    | some q => .ok q
    | none => .error .valueError

/-- `currency_converter_api()` (lines 36-56): parse `amount` catching
only `ValueError` (a `TypeError` from a missing parameter escapes
uncaught), read the two currency parameters, call `convert`, and map
each exception class to its fixed `Response`.  A `None`
`input_currency` matches no table entry in `get_currency_code`, so
`convert` raises `UnknownCurrencyError`; that is inlined here since the
embedded `convert` takes a `String` input token. -/
def currency_converter_api (fp : String → Option ℚ) (p : RateProvider)
    (args : String → Option String) : Except PyExn Response :=
  match pyFloat fp (args "amount") with
  | .error .typeError => .error .typeError
  | .error .valueError => .ok ⟨ErrorMsg.float_arg_expected, 400⟩
  | .ok amount =>
    let result : Except ConvError String :=
      match args "input_currency" with
      | none => .error .unknownCurrency
      | some input_currency =>
        convert p amount input_currency (args "output_currency")
    match result with
    | .ok output => .ok ⟨output, 200⟩
    | .error .connectionError => .ok ⟨ErrorMsg.no_connection, 503⟩
    | .error .ratesNotAvailable => .ok ⟨ErrorMsg.rate_not_available, 405⟩
    | .error .unknownCurrency => .ok ⟨ErrorMsg.unknown_currency, 400⟩
    | .error .sameCurrency => .ok ⟨ErrorMsg.same_currency, 400⟩

/-- A provider that signals no transport failures: none of the three
provider calls ever fails with `ConnectionError`. -/
def NoConnectionFailure (p : RateProvider) : Prop :=
  (∀ c1 c2 a, p.convert c1 c2 a ≠ .error .connectionError) ∧
  (∀ a cc, p.convert_btc_to_cur a cc ≠ .error .connectionError) ∧
  (∀ a c0, p.convert_to_btc a c0 ≠ .error .connectionError)

/-- A concrete healthy provider for witnesses: every fiat rate
multiplies into 90, BTC sells at 50000, fiat buys 7/3 BTC. -/
def demoProvider : RateProvider :=
  { convert := fun _ _ _ => .ok 90
    convert_btc_to_cur := fun _ _ => .ok 50000
    convert_to_btc := fun _ _ => .ok (7 / 3) }

/-- A concrete provider with a rate gap for witnesses: no rate towards
EUR or towards BTC, every other fiat pair converts into 80. -/
def rateGapProvider : RateProvider :=
  { convert := fun _ c2 _ =>
      if c2 = "EUR" then .error .ratesNotAvailable else .ok 80
    convert_btc_to_cur := fun _ _ => .ok 50000
    convert_to_btc := fun _ _ => .error .ratesNotAvailable }

/-- A concrete provider with a transport failure for witnesses:
converting towards GBP hits `ConnectionError`, everything else works. -/
def offlineProvider : RateProvider :=
  { convert := fun _ c2 _ =>
      if c2 = "GBP" then .error .connectionError else .ok 80
    convert_btc_to_cur := fun _ _ => .ok 50000
    convert_to_btc := fun _ _ => .ok (7 / 3) }

end CurrencyConverter

deriving instance DecidableEq for Except

namespace CurrencyConverter

/-- `pyRound x n` is an integer multiple of `10 ^ (-n)`. -/
lemma pyRound_den (x : ℚ) (n : ℕ) : (pyRound x n * 10 ^ n).den = 1 := by
  have h10 : (10 : ℚ) ^ n ≠ 0 := by positivity
  rw [pyRound, div_mul_cancel₀ _ h10]
  exact Rat.den_intCast _

/-- `Except.map` never turns a non-`e` result into the error `e`. -/
lemma excMap_ne_error {x : Except ProviderError ℚ} {f : ℚ → ℚ}
    {e : ProviderError} (h : x ≠ .error e) : x.map f ≠ .error e := by
  cases x with
  | ok v => simp [Except.map]
  | error e0 => simpa [Except.map] using h

/-- Every entry of a successful `convertLoop` run differs from the input
code and carries exactly the (rounded) value returned by the provider
attempt for that pair. -/
lemma convertLoop_ok_mem {p : RateProvider} {a : ℚ} {ic : String}
    {oc : Option String} {l : List String} {out : List (String × ℚ)}
    (h : convertLoop p a ic oc l = .ok out) {cc : String} {v : ℚ}
    (hm : (cc, v) ∈ out) : cc ≠ ic ∧ attemptFor p a ic cc = .ok v := by
  induction l generalizing out with
  | nil =>
    simp only [convertLoop] at h
    cases h
    simp at hm
  | cons hd tl ih =>
    simp only [convertLoop] at h
    split at h
    · split at h
      · exact ih h hm
      · cases h
    · rename_i hhd
      split at h
      · rename_i w hw
        split at h
        · rename_i out' hout
          cases h
          rcases List.mem_cons.mp hm with h1 | h1
          · cases h1
            exact ⟨hhd, hw⟩
          · exact ih hout h1
        · cases h
      · split at h
        · exact ih h hm
        · cases h
      · cases h

/-- In broadcast mode the loop can never raise `SameCurrencyError`. -/
lemma convertLoop_broadcast_ne_same {p : RateProvider} {a : ℚ}
    {ic : String} {l : List String} :
    convertLoop p a ic none l ≠ .error .sameCurrency := by
  induction l with
  | nil => simp [convertLoop]
  | cons hd tl ih =>
    simp only [convertLoop]
    split
    · exact ih
    · split
      · split
        · simp
        · rename_i e hrec
          intro hcontra
          injection hcontra with he
          subst he
          exact ih hrec
      · exact ih
      · intro hcontra
        injection hcontra with he
        cases he

/-- In broadcast mode, when no attempt hits a transport failure, the
loop succeeds. -/
lemma convertLoop_broadcast_noConn_ok {p : RateProvider} {a : ℚ}
    {ic : String} {l : List String}
    (h : ∀ cc ∈ l, attemptFor p a ic cc ≠ .error .connectionError) :
    ∃ out, convertLoop p a ic none l = .ok out := by
  induction l with
  | nil => exact ⟨[], rfl⟩
  | cons hd tl ih =>
    obtain ⟨out, hout⟩ :=
      ih (fun cc hcc => h cc (List.mem_cons_of_mem _ hcc))
    simp only [convertLoop]
    split
    · exact ⟨out, hout⟩
    · cases hat : attemptFor p a ic hd with
      | ok v =>
        rw [hout]
        exact ⟨(hd, v) :: out, rfl⟩
      | error e =>
        cases e with
        | ratesNotAvailable => exact ⟨out, hout⟩
        | connectionError => exact absurd hat (h hd (List.mem_cons_self _ _))

/-- The keys of a successful `convertLoop` run form a subsequence of the
target list: output order is processing order. -/
lemma convertLoop_keys_sublist {p : RateProvider} {a : ℚ} {ic : String}
    {oc : Option String} {l : List String} {out : List (String × ℚ)}
    (h : convertLoop p a ic oc l = .ok out) :
    List.Sublist (out.map Prod.fst) l := by
  induction l generalizing out with
  | nil =>
    simp only [convertLoop] at h
    cases h
    simp
  | cons hd tl ih =>
    simp only [convertLoop] at h
    split at h
    · split at h
      · exact (ih h).cons _
      · cases h
    · split at h
      · rename_i w hw
        split at h
        · rename_i out' hout
          cases h
          simpa using (ih hout).cons₂ hd
        · cases h
      · split at h
        · exact (ih h).cons _
        · cases h
      · cases h

/-- The value recorded for target `cc` is rounded to 5 decimal places
when `cc` is BTC and to 2 decimal places otherwise. -/
lemma attemptFor_ok_den {p : RateProvider} {a : ℚ} {ic cc : String}
    {v : ℚ} (hne : cc ≠ ic) (h : attemptFor p a ic cc = .ok v) :
    (v * 10 ^ (if cc = "BTC" then 5 else 2)).den = 1 := by
  unfold attemptFor at h
  split at h
  · rename_i hic
    have hcc : ¬ cc = "BTC" := by
      subst hic
      exact hne
    rw [if_neg hcc]
    cases hcall : p.convert_btc_to_cur a cc with
    | ok raw =>
      rw [hcall] at h
      simp only [Except.map, Except.ok.injEq] at h
      rw [← h]
      exact pyRound_den raw 2
    | error e =>
      rw [hcall] at h
      cases h
  · split at h
    · rename_i hcc
      rw [if_pos hcc]
      cases hcall : p.convert_to_btc a ic with
      | ok raw =>
        rw [hcall] at h
        simp only [Except.map, Except.ok.injEq] at h
        rw [← h]
        exact pyRound_den raw 5
      | error e =>
        rw [hcall] at h
        cases h
    · rename_i hic hcc
      rw [if_neg hcc]
      cases hcall : p.convert ic cc a with
      | ok raw =>
        rw [hcall] at h
        simp only [Except.map, Except.ok.injEq] at h
        rw [← h]
        exact pyRound_den raw 2
      | error e =>
        rw [hcall] at h
        cases h

end CurrencyConverter

namespace CurrencyConverter

/-- Anatomy of a successful `convertData` run: the input token resolved,
the `input` sub-dict records the amount and the resolved code, and the
`output` sub-dict is a successful loop run over the targets (the whole
table, in broadcast mode). -/
lemma convertData_ok_elim {p : RateProvider} {a : ℚ} {ti : String}
    {ot : Option String} {r : OutputData}
    (h : convertData p a ti ot = .ok r) :
    ∃ ic targets, get_currency_code ti = some ic ∧
      r.input = ⟨a, ic⟩ ∧
      convertLoop p a ic ot targets = .ok r.output ∧
      (ot = none → targets = get_currency_data.map (fun item => item.cc)) := by
  cases hic : get_currency_code ti with
  | none =>
    simp only [convertData, hic] at h
    cases h
  | some ic =>
    cases ot with
    | none =>
      simp only [convertData, hic] at h
      refine ⟨ic, get_currency_data.map (fun item => item.cc), rfl, ?_⟩
      split at h
      · cases h
      · rename_i out hout
        cases h
        exact ⟨rfl, hout, fun _ => rfl⟩
    | some oc =>
      simp only [convertData, hic] at h
      cases hoc : get_currency_code oc with
      | none =>
        simp only [hoc] at h
        cases h
      | some occ =>
        simp only [hoc] at h
        refine ⟨ic, [occ], rfl, ?_⟩
        split at h
        · cases h
        · rename_i out hout
          cases h
          exact ⟨rfl, hout, fun hcontra => by cases hcontra⟩

/-- C5: `resolve("$")` returns `"USD"` unconditionally: `"$"` is not
itself a code, the general first-match rule over the symbol column would
return `"AUD"` (the table also lists CAD, MXN, USD under `"$"`), yet the
hard-coded override answers `"USD"`. -/
theorem c5_dollar_override :
    get_currency_code "$" = some "USD" ∧
    is_currency_code "$" = false ∧
    (get_currency_data.filter (fun item => item.symbol = "$")).map
      (fun item => item.cc) = ["AUD", "CAD", "MXN", "USD"] ∧
    (get_currency_data.find? (fun item => item.symbol = "$")).map
      (fun item => item.cc) = some "AUD" := by
  refine ⟨rfl, rfl, rfl, rfl⟩

/-- C6: a token that is neither a known code nor `"$"` is matched
literally against the symbol column, first match in table order
(`find?`); concretely `"¥"` resolves to `"CNY"` (ahead of JPY), an
unknown token yields `None`, and neither case-folding nor whitespace
trimming happens (`"KR"`, `" kr"`, `"kr "` all miss while `"kr"` hits). -/
theorem c6_symbol_scan :
    (∀ tok, is_currency_code tok = false → tok ≠ "$" →
      get_currency_code tok =
        (get_currency_data.find? (fun item => item.symbol = tok)).map
          (fun item => item.cc)) ∧
    get_currency_code "¥" = some "CNY" ∧
    get_currency_code "nonexistent" = none ∧
    get_currency_code "kr" = some "ISK" ∧
    get_currency_code "KR" = none ∧
    get_currency_code " kr" = none ∧
    get_currency_code "kr " = none := by
  refine ⟨?_, rfl, rfl, rfl, rfl, rfl, rfl⟩
  intro tok h1 h2
  unfold get_currency_code
  rw [if_neg (by simp [h1]), if_neg h2]

/-- C6 witness: the generic scan rule instantiated at the shared symbol
`"kr"`. -/
theorem c6_symbol_scan_witness :
    get_currency_code "kr" =
      (get_currency_data.find? (fun item => item.symbol = "kr")).map
        (fun item => item.cc) :=
  c6_symbol_scan.1 "kr" (by decide) (by decide)

/-- C8: a token equal to a known ISO code (BTC included) is returned
unchanged by the exact-code fast path. -/
theorem c8_code_fast_path (tok : String)
    (h : is_currency_code tok = true) :
    get_currency_code tok = some tok := by
  unfold get_currency_code
  rw [if_pos h]

/-- C8 witness: the fast path instantiated at the pseudo-code `"BTC"`. -/
theorem c8_code_fast_path_witness :
    is_currency_code "BTC" = true ∧ get_currency_code "BTC" = some "BTC" :=
  ⟨by decide, c8_code_fast_path "BTC" (by decide)⟩

/-- C9: resolution is idempotent: whenever `get_currency_code` answers
`some c`, resolving `c` again answers `some c` — every code it can
return (each table `cc`, and `"USD"` for the `"$"` override) is a code
of the table, so the second resolution hits the exact-code fast path. -/
theorem c9_resolve_idempotent (t c : String)
    (h : get_currency_code t = some c) :
    get_currency_code c = some c := by
  unfold get_currency_code at h
  by_cases h1 : is_currency_code t
  · rw [if_pos h1] at h
    cases h
    exact c8_code_fast_path t h1
  · rw [if_neg h1] at h
    by_cases h2 : t = "$"
    · rw [if_pos h2] at h
      cases h
      rfl
    · rw [if_neg h2] at h
      cases hf : get_currency_data.find? (fun item => item.symbol = t) with
      | none =>
        rw [hf] at h
        cases h
      | some e =>
        rw [hf] at h
        simp only [Option.map_some', Option.some.injEq] at h
        have hmem : e ∈ get_currency_data := List.mem_of_find?_eq_some hf
        have hcode : is_currency_code e.cc = true := by
          unfold is_currency_code
          exact List.any_eq_true.mpr ⟨e, hmem, by simp⟩
        rw [← h]
        exact c8_code_fast_path e.cc hcode

/-- C9 witness: idempotence instantiated at the symbol `"¥"` and its
resolution `"CNY"`. -/
theorem c9_resolve_idempotent_witness :
    get_currency_code "¥" = some "CNY" ∧
    get_currency_code "CNY" = some "CNY" :=
  ⟨by decide, c9_resolve_idempotent "¥" "CNY" (by decide)⟩

end CurrencyConverter

namespace CurrencyConverter

/-- A provider with no transport failures never makes an attempt fail
with `ConnectionError`. -/
lemma attemptFor_ne_conn {p : RateProvider} {a : ℚ} {ic cc : String}
    (hp : NoConnectionFailure p) :
    attemptFor p a ic cc ≠ .error .connectionError := by
  obtain ⟨h1, h2, h3⟩ := hp
  unfold attemptFor
  split
  · exact excMap_ne_error (h2 a cc)
  · split
    · exact excMap_ne_error (h3 a ic)
    · exact excMap_ne_error (h1 ic cc a)

/-- Broadcast `convertData` never raises `SameCurrencyError`. -/
lemma convertData_broadcast_ne_same {p : RateProvider} {a : ℚ}
    {ti : String} :
    convertData p a ti none ≠ .error .sameCurrency := by
  cases hic : get_currency_code ti with
  | none =>
    simp [convertData, hic]
  | some ic =>
    simp only [convertData, hic]
    split
    · rename_i e heq
      intro hcontra
      injection hcontra with he
      subst he
      exact convertLoop_broadcast_ne_same heq
    · simp

/-- C1: when the two tokens resolve to the same code, single-target
conversion raises `SameCurrencyError` for every amount and every
provider; in broadcast mode the input currency is omitted from the
output mapping and the call never raises `SameCurrencyError`. -/
theorem c1_same_currency (p : RateProvider) (a : ℚ) (ti tok c : String)
    (hi : get_currency_code ti = some c)
    (ho : get_currency_code tok = some c) :
    convert p a ti (some tok) = .error .sameCurrency ∧
    (∀ r, convertData p a ti none = .ok r → ∀ v : ℚ, (c, v) ∉ r.output) ∧
    convert p a ti none ≠ .error .sameCurrency := by
  refine ⟨?_, ?_, ?_⟩
  · unfold convert convertData
    simp [hi, ho, convertLoop, Except.map]
  · intro r hr v hv
    obtain ⟨ic, targets, hic, hinput, hloop, htargets⟩ :=
      convertData_ok_elim hr
    rw [hi] at hic
    injection hic with hic
    subst hic
    exact (convertLoop_ok_mem hloop hv).1 rfl
  · unfold convert
    cases hd : convertData p a ti none with
    | ok r =>
      simp [Except.map]
    | error e =>
      intro hcontra
      simp only [Except.map] at hcontra
      injection hcontra with he
      subst he
      exact convertData_broadcast_ne_same hd

/-- C1 witness: tokens `"USD"` and `"$"` both resolve to `"USD"`; the
single-target conversion between them fails with `SameCurrencyError`. -/
theorem c1_same_currency_witness :
    get_currency_code "USD" = some "USD" ∧
    get_currency_code "$" = some "USD" ∧
    convert demoProvider 5 "USD" (some "$") = .error .sameCurrency :=
  ⟨by decide, by decide,
   (c1_same_currency demoProvider 5 "USD" "$" "USD" (by decide)
     (by decide)).1⟩

/-- C2: a rate-unavailable answer from the provider for the requested
pair makes the whole single-target call fail with
`RatesNotAvailableError`, while in broadcast mode (given no transport
failure anywhere) the call succeeds and every rate-unavailable target is
omitted from the output mapping. -/
theorem c2_rate_unavailable :
    (∀ (p : RateProvider) (a : ℚ) (ti tok ci co : String),
      get_currency_code ti = some ci → get_currency_code tok = some co →
      ci ≠ co → attemptFor p a ci co = .error .ratesNotAvailable →
      convert p a ti (some tok) = .error .ratesNotAvailable) ∧
    (∀ (p : RateProvider) (a : ℚ) (ti ci : String),
      get_currency_code ti = some ci → NoConnectionFailure p →
      ∃ r, convertData p a ti none = .ok r ∧
        ∀ cc, attemptFor p a ci cc = .error .ratesNotAvailable →
          ∀ v : ℚ, (cc, v) ∉ r.output) := by
  constructor
  · intro p a ti tok ci co hi ho hne hat
    unfold convert convertData
    simp only [hi, ho]
    simp only [convertLoop]
    rw [if_neg (fun hcontra => hne hcontra.symm), hat]
    rfl
  · intro p a ti ci hi hp
    obtain ⟨out, hout⟩ :=
      @convertLoop_broadcast_noConn_ok p a ci
        (get_currency_data.map (fun item => item.cc))
        (fun cc _ => attemptFor_ne_conn hp)
    refine ⟨⟨⟨a, ci⟩, out⟩, ?_, ?_⟩
    · simp only [convertData, hi, hout]
    · intro cc hat v hv
      have hok := (convertLoop_ok_mem hout hv).2
      rw [hok] at hat
      cases hat

/-- C2 witness: with a provider lacking any rate towards EUR or BTC,
the single-target USD→EUR call fails with `RatesNotAvailableError`,
while the broadcast call succeeds and omits those targets. -/
theorem c2_rate_unavailable_witness :
    convert rateGapProvider 100 "USD" (some "EUR") =
      .error .ratesNotAvailable ∧
    ∃ r, convertData rateGapProvider 100 "USD" none = .ok r ∧
      ∀ cc, attemptFor rateGapProvider 100 "USD" cc =
          .error .ratesNotAvailable →
        ∀ v : ℚ, (cc, v) ∉ r.output :=
  ⟨c2_rate_unavailable.1 rateGapProvider 100 "USD" "EUR" "USD" "EUR"
    (by decide) (by decide) (by decide) (by decide),
   c2_rate_unavailable.2 rateGapProvider 100 "USD" "USD" (by decide)
    ⟨fun c1 c2 a => by
      by_cases h : c2 = "EUR" <;> simp [rateGapProvider, h],
     fun a cc => by simp [rateGapProvider],
     fun a c0 => by simp [rateGapProvider]⟩⟩

end CurrencyConverter

namespace CurrencyConverter

/-- C3: a transport failure from the provider is never caught: the
single-target call fails with `ConnectionError`; in broadcast mode the
loop aborts with `ConnectionError` at the first target whose attempt
fails that way, whatever targets remain after it (no partial result),
and the whole broadcast `convert` call fails the same way. -/
theorem c3_connection_failure :
    (∀ (p : RateProvider) (a : ℚ) (ti tok ci co : String),
      get_currency_code ti = some ci → get_currency_code tok = some co →
      ci ≠ co → attemptFor p a ci co = .error .connectionError →
      convert p a ti (some tok) = .error .connectionError) ∧
    (∀ (p : RateProvider) (a : ℚ) (ic t : String) (l1 l2 : List String),
      t ≠ ic → attemptFor p a ic t = .error .connectionError →
      (∀ u ∈ l1, attemptFor p a ic u ≠ .error .connectionError) →
      convertLoop p a ic none (l1 ++ t :: l2) =
        .error .connectionError) ∧
    (∀ (p : RateProvider) (a : ℚ) (ti ci t : String)
       (l1 l2 : List String),
      get_currency_code ti = some ci →
      get_currency_data.map (fun item => item.cc) = l1 ++ t :: l2 →
      t ≠ ci → attemptFor p a ci t = .error .connectionError →
      (∀ u ∈ l1, attemptFor p a ci u ≠ .error .connectionError) →
      convert p a ti none = .error .connectionError) := by
  have loopPart : ∀ (p : RateProvider) (a : ℚ) (ic t : String)
      (l1 l2 : List String),
      t ≠ ic → attemptFor p a ic t = .error .connectionError →
      (∀ u ∈ l1, attemptFor p a ic u ≠ .error .connectionError) →
      convertLoop p a ic none (l1 ++ t :: l2) =
        .error .connectionError := by
    intro p a ic t l1 l2 hne hat hl1
    induction l1 with
    | nil =>
      simp only [List.nil_append, convertLoop]
      rw [if_neg hne, hat]
    | cons u l1x ih =>
      have hu := hl1 u (List.mem_cons_self _ _)
      have ihx := ih (fun x hx => hl1 x (List.mem_cons_of_mem _ hx))
      simp only [List.cons_append, convertLoop]
      by_cases huic : u = ic
      · rw [if_pos huic]
        exact ihx
      · rw [if_neg huic]
        cases hau : attemptFor p a ic u with
        | ok v =>
          rw [List.append_eq, ihx]
        | error e =>
          cases e with
          | ratesNotAvailable =>
            exact ihx
          | connectionError =>
            exact absurd hau hu
  refine ⟨?_, loopPart, ?_⟩
  · intro p a ti tok ci co hi ho hne hat
    unfold convert convertData
    simp only [hi, ho]
    simp only [convertLoop]
    rw [if_neg (fun hcontra => hne hcontra.symm), hat]
    rfl
  · intro p a ti ci t l1 l2 hi htable hne hat hl1
    unfold convert convertData
    simp only [hi, htable]
    rw [loopPart p a ci t l1 l2 hne hat hl1]
    rfl

/-- C3 witness: a provider whose GBP conversions hit `ConnectionError`
makes the single-target USD→GBP call, the loop past earlier targets
(whatever follows GBP), and the whole broadcast call fail with
`ConnectionError`. -/
theorem c3_connection_failure_witness :
    convert offlineProvider 100 "USD" (some "GBP") =
      .error .connectionError ∧
    convertLoop offlineProvider 100 "USD" none ["EUR", "GBP", "JPY"] =
      .error .connectionError ∧
    convert offlineProvider 100 "USD" none = .error .connectionError :=
  ⟨c3_connection_failure.1 offlineProvider 100 "USD" "GBP" "USD" "GBP"
    (by decide) (by decide) (by decide) (by decide),
   c3_connection_failure.2.1 offlineProvider 100 "USD" "GBP" ["EUR"]
    ["JPY"] (by decide) (by decide) (by decide),
   c3_connection_failure.2.2 offlineProvider 100 "USD" "USD" "GBP"
    ["AUD", "BTC", "CAD", "CNY", "EUR"]
    ["ISK", "JPY", "MXN", "NOK", "RUB", "SEK", "USD", "ZAR"]
    (by decide) (by decide) (by decide) (by decide) (by decide)⟩

/-- C4: every amount in the output mapping of a successful conversion
is an integer multiple of 10^(-5) when the target code is BTC and of
10^(-2) for every other target — including fiat targets converted from
a BTC input. -/
theorem c4_rounding (p : RateProvider) (a : ℚ) (ti : String)
    (ot : Option String) (r : OutputData) (cc : String) (v : ℚ)
    (h : convertData p a ti ot = .ok r) (hm : (cc, v) ∈ r.output) :
    (v * 10 ^ (if cc = "BTC" then 5 else 2)).den = 1 := by
  obtain ⟨ic, targets, hic, hinput, hloop, htargets⟩ :=
    convertData_ok_elim h
  obtain ⟨hne, hok⟩ := convertLoop_ok_mem hloop hm
  exact attemptFor_ok_den hne hok

/-- Concrete rounding fact: 7/3 rounded to 5 decimal places. -/
lemma pyRound_sevenThirds : pyRound (7 / 3) 5 = 233333 / 100000 := by
  rw [pyRound, round_eq]
  norm_num [Rat.floor_def]

/-- The demo provider converts 2 EUR into 2.33333 BTC. -/
lemma attemptFor_demo_btc :
    attemptFor demoProvider 2 "EUR" "BTC" = .ok (233333 / 100000) := by
  rw [attemptFor, if_neg (by decide), if_pos rfl]
  show Except.map _ (Except.ok (7 / 3)) = _
  simp only [Except.map, pyRound_sevenThirds]

/-- The full single-target EUR→BTC run of the demo provider. -/
lemma convertData_demo_btc :
    convertData demoProvider 2 "EUR" (some "BTC") =
      .ok ⟨⟨2, "EUR"⟩, [("BTC", 233333 / 100000)]⟩ := by
  have hloop : convertLoop demoProvider 2 "EUR" (some "BTC") ["BTC"] =
      .ok [("BTC", 233333 / 100000)] := by
    simp only [convertLoop]
    rw [if_neg (by decide), attemptFor_demo_btc]
  simp only [convertData, show get_currency_code "EUR" = some "EUR" from rfl,
    show get_currency_code "BTC" = some "BTC" from rfl, hloop]

/-- C4 witness: converting 2 EUR into BTC with a provider quoting 7/3
BTC yields 2.33333 BTC, rounded to 5 decimal places. -/
theorem c4_rounding_witness :
    convertData demoProvider 2 "EUR" (some "BTC") =
      .ok ⟨⟨2, "EUR"⟩, [("BTC", 233333 / 100000)]⟩ ∧
    (((233333 : ℚ) / 100000) * 10 ^ (if "BTC" = "BTC" then 5 else 2)).den
      = 1 :=
  ⟨convertData_demo_btc,
   c4_rounding demoProvider 2 "EUR" (some "BTC")
    ⟨⟨2, "EUR"⟩, [("BTC", 233333 / 100000)]⟩ "BTC" (233333 / 100000)
    convertData_demo_btc (List.mem_singleton.mpr rfl)⟩

end CurrencyConverter

namespace CurrencyConverter

/-- Concrete rounding fact: 90 rounded to 2 decimal places. -/
lemma pyRound_ninety : pyRound 90 2 = 90 := by
  rw [pyRound, round_eq]
  norm_num [Rat.floor_def]

/-- The demo provider converts 100 USD into 90 EUR. -/
lemma attemptFor_demo_eur :
    attemptFor demoProvider 100 "USD" "EUR" = .ok 90 := by
  rw [attemptFor, if_neg (by decide), if_neg (by decide)]
  show Except.map _ (Except.ok 90) = _
  simp only [Except.map, pyRound_ninety]

/-- The full single-target USD→EUR run of the demo provider. -/
lemma convertData_demo_eur :
    convertData demoProvider 100 "USD" (some "EUR") =
      .ok ⟨⟨100, "USD"⟩, [("EUR", 90)]⟩ := by
  have hloop : convertLoop demoProvider 100 "USD" (some "EUR") ["EUR"] =
      .ok [("EUR", 90)] := by
    simp only [convertLoop]
    rw [if_neg (by decide), attemptFor_demo_eur]
  simp only [convertData, show get_currency_code "USD" = some "USD" from rfl,
    show get_currency_code "EUR" = some "EUR" from rfl, hloop]

/-- C7 counterexample: the core `convert` itself serializes — on the
USD→EUR scenario of the spec (rate 0.9, amount 100) its success value is
the tab-indented JSON text, not a bare structure; the shells (HTTP
handler and CLI) pass this text through unchanged. -/
theorem c7_counterexample :
    convert demoProvider 100 "USD" (some "EUR") =
      .ok "\x7b\n\t\"input\": \x7b\n\t\t\"amount\": 100.0,\n\t\t\"currency\": \"USD\"\n\t\x7d,\n\t\"output\": \x7b\n\t\t\"EUR\": 90.0\n\t\x7d\n\x7d" := by
  rw [convert, convertData_demo_eur]
  rfl

/-- C7 (amended): a successful `convertData` records the requested
amount and the resolved input code in `input`, keeps targets in
processing order (a subsequence of table order in broadcast mode), and
`convert` returns exactly the `json.dumps` serialization of that
structure (serialization happens inside `convert`, not in the shells). -/
theorem c7_structured_result (p : RateProvider) (a : ℚ) (ti : String)
    (ot : Option String) (r : OutputData)
    (h : convertData p a ti ot = .ok r) :
    r.input.amount = a ∧
    get_currency_code ti = some r.input.currency ∧
    convert p a ti ot = .ok (jsonDumps r) ∧
    (ot = none → List.Sublist (r.output.map Prod.fst)
      (get_currency_data.map (fun item => item.cc))) := by
  obtain ⟨ic, targets, hic, hinput, hloop, htargets⟩ :=
    convertData_ok_elim h
  refine ⟨?_, ?_, ?_, ?_⟩
  · rw [hinput]
  · rw [hinput]
    exact hic
  · rw [convert, h]
    rfl
  · intro hnone
    subst hnone
    rw [← htargets rfl]
    exact convertLoop_keys_sublist hloop

/-- C7 witness: the amended structure claim instantiated on the USD→EUR
scenario of the spec. -/
theorem c7_structured_result_witness :
    convertData demoProvider 100 "USD" (some "EUR") =
      .ok ⟨⟨100, "USD"⟩, [("EUR", 90)]⟩ ∧
    get_currency_code "USD" =
      some (OutputData.mk ⟨100, "USD"⟩ [("EUR", 90)]).input.currency ∧
    convert demoProvider 100 "USD" (some "EUR") =
      .ok (jsonDumps ⟨⟨100, "USD"⟩, [("EUR", 90)]⟩) :=
  ⟨convertData_demo_eur,
   (c7_structured_result demoProvider 100 "USD" (some "EUR")
     ⟨⟨100, "USD"⟩, [("EUR", 90)]⟩ convertData_demo_eur).2.1,
   (c7_structured_result demoProvider 100 "USD" (some "EUR")
     ⟨⟨100, "USD"⟩, [("EUR", 90)]⟩ convertData_demo_eur).2.2.1⟩

/-- C10: when the `amount` query parameter is absent, `float(None)`
raises `TypeError`; the handler catches only `ValueError`, so the
exception escapes and no `Response` — in particular not the fixed 400
"float expected" one — is produced. -/
theorem c10_missing_amount (fp : String → Option ℚ) (p : RateProvider)
    (args : String → Option String) (h : args "amount" = none) :
    currency_converter_api fp p args = .error .typeError ∧
    ∀ resp : Response, currency_converter_api fp p args ≠ .ok resp := by
  have h1 : currency_converter_api fp p args = .error .typeError := by
    rw [currency_converter_api, h]
    rfl
  exact ⟨h1, fun resp hc => by rw [h1] at hc; cases hc⟩

/-- C10 witness: a request with no parameters at all escapes with
`TypeError`. -/
theorem c10_missing_amount_witness :
    currency_converter_api (fun _ => none) demoProvider (fun _ => none) =
      .error .typeError :=
  (c10_missing_amount (fun _ => none) demoProvider (fun _ => none) rfl).1

end CurrencyConverter
